import Mathlib

/-!
Verification of the state-synchronization and versioning subsystem of the
project_context repository (sync engine `ops.update_context`, snapshot
manager `history.SnapshotManager`, transcript editor
`api_drive.AIStudioDriveManager`).

The Python code is shallowly embedded: the remote Google Drive store is an
explicit state value threaded through each operation together with a trace
of remote calls, pydantic block models become an inductive type of chunks,
and local filesystem effects of the snapshot manager become an explicit
local-store value.
-/

/-- Role of a chunk, `Literal["user", "model"]` in schema.py. -/
inductive Role where
  | user
  | model
deriving DecidableEq, Repr

/-- One transcript block.  Mirrors the union
`ChunksText | ChunksDocument | ChunksImage` of schema.py (the fields the
editor code reads and writes: role, text, tokenCount, finishReason, and the
drive ids). -/
inductive Chunk where
  | text (role : Role) (content : String) (tokenCount : Option Nat)
      (finishReason : Option String)
  | doc (role : Role) (docId : String) (tokenCount : Nat)
  | image (role : Role) (imgId : String) (tokenCount : Option Nat)
deriving DecidableEq, Repr

/-- The `role` attribute, present on every chunk variant. -/
def Chunk.role : Chunk → Role
  | .text r _ _ _ => r
  | .doc r _ _ => r
  | .image r _ _ => r

/-- The chat document as the editor sees it (`ChatIAStudio.chunkedPrompt.chunks`);
the remaining pydantic fields are never read or written by the verified
operations and are omitted. -/
structure Chat where
  chunks : List Chunk
deriving DecidableEq, Repr

/-- One remote Drive call, recorded in a trace.  The two local filesystem
steps of the sync engine (context regeneration and the cache write) are also
recorded so that claims about "no regeneration" are expressible. -/
inductive DriveOp where
  | getContent (id : String)
  | getMetadata (id : String)
  | updateFile (id : String)
  | createFile (name : String)
  | generateContext
  | saveContext
deriving DecidableEq, Repr

/-- A remote write, as opposed to a download, metadata read, or local step. -/
def DriveOp.isWrite : DriveOp → Bool
  | .updateFile _ => true
  | .createFile _ => true
  | _ => false

/-- The remote writes contained in a trace. -/
def writesOf (tr : List DriveOp) : List DriveOp :=
  tr.filter DriveOp.isWrite

/-- Replace the value bound to a key in an association list, or append it. -/
def setAssoc {α : Type} (id : String) (v : α) : List (String × α) → List (String × α)
  | [] => [(id, v)]
  | (k, w) :: rest =>
      if k = id then (id, v) :: rest else (k, w) :: setAssoc id v rest

/-- The remote document store.  `files` holds plain documents by id (the
context text file, and the raw transcript bytes as the snapshot manager sees
them); `chats` is the parsed view of chat documents (JSON serialization of
`ChatIAStudio` is treated as transparent).  `failRead` are ids whose
download raises `HttpError` inside `get_file_content`; `failUpdate` are ids
whose upload raises `HttpError` inside `update_file_from_memory`. -/
structure Remote where
  files : List (String × String)
  chats : List (String × Chat)
  failRead : List String
  failUpdate : List String
deriving DecidableEq, Repr

/-- `GoogleDriveManager.get_file_content`: returns the bytes, or None when
the download fails (the HttpError is caught and logged). -/
def get_file_content (id : String) (r : Remote) : Option String :=
  if id ∈ r.failRead then none else (r.files.find? (fun p => p.1 = id)).map (·.2)

/-- `GoogleDriveManager.update_file_from_memory`: uploads new content for an
existing file id.  On HttpError the error is logged and None is returned,
modelled by the Bool component; the store is unchanged in that case. -/
def update_file_from_memory (id : String) (content : String) (r : Remote) :
    Remote × Bool :=
  if id ∈ r.failUpdate then (r, false)
  else ({ r with files := setAssoc id content r.files }, true)

/-- `AIStudioDriveManager.get_chat_ia_studio`: download and parse a chat
document; None when the download or the JSON decoding fails. -/
def get_chat_ia_studio (id : String) (r : Remote) : Option Chat :=
  if id ∈ r.failRead then none else (r.chats.find? (fun p => p.1 = id)).map (·.2)

/-- `AIStudioDriveManager.update_chat_file`: serialize a chat object and
upload it; False when the upload fails. -/
def update_chat_file (id : String) (chat : Chat) (r : Remote) : Remote × Bool :=
  if id ∈ r.failUpdate then (r, false)
  else ({ r with chats := setAssoc id chat r.chats }, true)

/-- `AIStudioDriveManager.modify_chat`: the download/modify/save context
manager.  The body is a function from the downloaded chat to an exception
(`Except.error`) or a final chat plus the value of the with-block.  On a
missing chat a FileNotFoundError is raised; on a body exception the changes
are discarded and the exception propagates; otherwise the chat is written
back unconditionally, and a failed write raises IOError. -/
def modify_chat {α : Type} (chatId : String) (r : Remote)
    (body : Chat → Except String (Chat × α)) :
    Remote × List DriveOp × Except String α :=
  match get_chat_ia_studio chatId r with
  | none => (r, [.getContent chatId], .error "FileNotFoundError")
  | some chat =>
    match body chat with
    | .error e => (r, [.getContent chatId], .error e)
    | .ok (chat2, a) =>
      let (r2, ok) := update_chat_file chatId chat2 r
      if ok then (r2, [.getContent chatId, .updateFile chatId], .ok a)
      else (r2, [.getContent chatId, .updateFile chatId], .error "IOError")

/-- Whether one character list is a prefix of another. -/
def listPrefix : List Char → List Char → Bool
  | [], _ => true
  | _ :: _, [] => false
  | c :: cs, d :: ds => c = d && listPrefix cs ds

/-- Whether the first character list occurs contiguously inside the
second. -/
def listContains (need : List Char) : List Char → Bool
  | [] => listPrefix need []
  | c :: t => listPrefix need (c :: t) || listContains need t

/-- Python substring containment `marker in text`, on the underlying
character lists. -/
def strContains (text marker : String) : Bool :=
  listContains marker.data text.data

/-- Whether a chunk is a ChunksText whose text contains the marker string
(the test `isinstance(chunk, ChunksText) and COMMIT_TASK_MARKER in
chunk.text`). -/
def isMarkerText (marker : String) : Chunk → Bool
  | .text _ t _ _ => strContains t marker
  | _ => false

/-- `isinstance(chunk, (ChunksDocument, ChunksImage)) or hasattr(chunk,
"driveDocument")` from clear_chat_ia_studio (only ChunksDocument carries
driveDocument, so the hasattr probe adds nothing). -/
def isDocOrImage : Chunk → Bool
  | .doc _ _ _ => true
  | .image _ _ _ => true
  | _ => false

/-- Index of the last document/image chunk, the fallback anchor scan of
clear_chat_ia_studio (the loop keeps overwriting doc_idx, so the last
matching index wins). -/
def lastDocIdx : List Chunk → Option Nat
  | [] => none
  | c :: rest =>
    match lastDocIdx rest with
    | some j => some (j + 1)
    | none => if isDocOrImage c then some 0 else none

/-- The cut index of clear_chat_ia_studio: the first model-role chunk, else
the last document/image chunk, extended by one position when a ChunksText
immediately follows it; none models the "Estructura de contexto inválida"
branch. -/
def clearCutIdx (chunks : List Chunk) : Option Nat :=
  match chunks.findIdx? (fun c => c.role = .model) with
  | some i => some i
  | none =>
    match lastDocIdx chunks with
    | some j =>
      match chunks.get? (j + 1) with
      | some (.text _ _ _ _) => some (j + 1)
      | _ => some j
    | none => none

/-- The with-block body of `clear_chat_ia_studio`: computes the trimmed
chunk list and the Bool value returned from inside the with-block.  Every
path exits the block normally (the early returns included), so the body
never raises. -/
def clearBody (chat : Chat) : Except String (Chat × Bool) :=
  let chunks := chat.chunks
  if chunks.isEmpty then .ok (chat, true)
  else
    match clearCutIdx chunks with
    | none => .ok (chat, false)
    | some cut =>
      let newChunks := chunks.take (cut + 1)
      if newChunks.length = chunks.length then .ok (chat, true)
      else .ok ({ chat with chunks := newChunks }, true)

/-- `AIStudioDriveManager.clear_chat_ia_studio`: trim the chat to its setup
prefix through modify_chat; any exception is caught and False returned. -/
def clear_chat_ia_studio (chatId : String) (r : Remote) :
    Remote × List DriveOp × Bool :=
  match modify_chat chatId r clearBody with
  | (r2, tr, .ok b) => (r2, tr, b)
  | (r2, tr, .error _) => (r2, tr, false)

/-- The scanning loop of `remove_commit_tasks`: the Bool argument is the
skip_next flag (the previous chunk was a marker block and the current chunk
is its model-role response, dropped and counted), and the marker branch
looks one chunk ahead to decide whether to set it. -/
def removeLoop (marker : String) : Bool → List Chunk → List Chunk × Nat
  | true, [] => ([], 0)
  | false, [] => ([], 0)
  | true, _ :: rest =>
    let (l, n) := removeLoop marker false rest
    (l, n + 1)
  | false, c :: rest =>
    if isMarkerText marker c then
      let skipNext := match rest with
        | c2 :: _ => decide (c2.role = .model)
        | [] => false
      let (l, n) := removeLoop marker skipNext rest
      (l, n + 1)
    else
      let (l, n) := removeLoop marker false rest
      (c :: l, n)

/-- The with-block body of `remove_commit_tasks`: the chunk list is replaced
only when something was removed, and the removed count is the value of the
block. -/
def removeBody (marker : String) (chat : Chat) : Except String (Chat × Nat) :=
  let (newChunks, n) := removeLoop marker false chat.chunks
  if n > 0 then .ok ({ chat with chunks := newChunks }, n)
  else .ok (chat, n)

/-- `AIStudioDriveManager.remove_commit_tasks`: remove marker blocks and
their paired model responses through modify_chat; any exception is caught
and 0 returned. -/
def remove_commit_tasks (marker : String) (chatId : String) (r : Remote) :
    Remote × List DriveOp × Nat :=
  match modify_chat chatId r (removeBody marker) with
  | (r2, tr, .ok n) => (r2, tr, n)
  | (r2, tr, .error _) => (r2, tr, 0)

/-- One chunk of `repair_chat_structure`: a ChunksText whose finishReason
differs from "STOP" (a missing finishReason, None, included) is forced to
"STOP" and counted. -/
def repairChunk : Chunk → Chunk × Nat
  | .text r t tk fr =>
    if fr ≠ some "STOP" then (.text r t tk (some "STOP"), 1)
    else (.text r t tk fr, 0)
  | c => (c, 0)

/-- The repair pass of `repair_chat_structure` over the whole chunk list. -/
def repairChunks : List Chunk → List Chunk × Nat
  | [] => ([], 0)
  | c :: rest =>
    let (c2, n) := repairChunk c
    let (l, m) := repairChunks rest
    (c2 :: l, n + m)

/-- The with-block body of `repair_chat_structure` (the chunks are mutated
in place, so the chat always carries the repaired list). -/
def repairBody (chat : Chat) : Except String (Chat × Nat) :=
  let (newChunks, n) := repairChunks chat.chunks
  .ok ({ chat with chunks := newChunks }, n)

/-- `AIStudioDriveManager.repair_chat_structure`: normalize finishReason
through modify_chat; any exception is caught and 0 returned. -/
def repair_chat_structure (chatId : String) (r : Remote) :
    Remote × List DriveOp × Nat :=
  match modify_chat chatId r repairBody with
  | (r2, tr, .ok n) => (r2, tr, n)
  | (r2, tr, .error _) => (r2, tr, 0)

/-- Modelled from the spec (section 4.3, remove_marked_tasks): scan for
TextBlocks containing the marker; remove the marker block, and remove
exactly one immediately following block when and only when that block has
role model, counting both removals; all other blocks are kept in order.
Stated as a second definition to compare with the source translation
`removeLoop`. -/
def removeMarkedTasksSpecFn (marker : String) : List Chunk → List Chunk × Nat
  | [] => ([], 0)
  | c :: rest =>
    if isMarkerText marker c then
      match rest with
      | c2 :: rest2 =>
        if c2.role = .model then
          let (l, n) := removeMarkedTasksSpecFn marker rest2
          (l, n + 2)
        else
          let (l, n) := removeMarkedTasksSpecFn marker (c2 :: rest2)
          (l, n + 1)
      | [] => ([], 1)
    else
      let (l, n) := removeMarkedTasksSpecFn marker rest
      (c :: l, n)
termination_by l => l.length
decreasing_by
  all_goals simp [List.length_cons]
  all_goals omega

/-- The filesystem view of the scan root (project_path, or
project_path/context_scope when a scope is set).  Each regular file found by
the recursive scan carries the result of the gitignore filter and its
modification time; dirMtime is the st_mtime of the scan root directory
itself (what update_context stores into last_modified); genContent and
genTokens are the deterministic outcome of generate_context on this
filesystem state. -/
structure FS where
  files : List (Bool × Nat)
  dirMtime : Nat
  genContent : String
  genTokens : Nat
deriving DecidableEq, Repr

/-- `utils.has_files_modified_since`: some non-ignored regular file has a
modification time strictly greater than the saved timestamp. -/
def has_files_modified_since (stMtime : Nat) (fs : FS) : Bool :=
  fs.files.any (fun f => !f.1 && decide (f.2 > stMtime))

/-- The persisted per-project state dictionary, with the keys update_context
reads and writes (path and context_scope are folded into the FS view of the
scan root). -/
structure StateRecord where
  last_modified : Nat
  md5 : Option String
  chat_id : Option String
  file_id : Option String
deriving DecidableEq, Repr

/-- The token-metadata fixup inside update_context: find the first chunk
carrying a driveDocument whose id equals file_id, set its tokenCount, and
stop; none when no such chunk exists. -/
def updateTokenChunk (fileId : String) (tokens : Nat) :
    List Chunk → Option (List Chunk)
  | [] => none
  | c :: rest =>
    match c with
    | .doc role docId tc =>
      if docId = fileId then some (.doc role docId tokens :: rest)
      else (updateTokenChunk fileId tokens rest).map (fun l => .doc role docId tc :: l)
    | c2 => (updateTokenChunk fileId tokens rest).map (fun l => c2 :: l)

/-- `ops.update_context`: the synchronize operation.  Raises (Except.error)
when chat_id is missing from the state, or at the file_id assertion.
Otherwise: return the state untouched when no file is newer than
last_modified; regenerate and, when the hash is unchanged, advance only
last_modified; otherwise push the context text (the result of the push is
ignored by the source), refresh the token metadata in the chat when the
context chunk is found, and advance md5 and last_modified. -/
def update_context (hash : String → String) (fs : FS) (r : Remote)
    (s : StateRecord) : Except String (StateRecord × Remote × List DriveOp) :=
  match s.chat_id with
  | none => .error "ValueError: chat_id"
  | some chatId =>
    if has_files_modified_since s.last_modified fs then
      let content := fs.genContent
      let newTokens := fs.genTokens
      let currentMd5 := hash content
      if s.md5 = some currentMd5 then
        .ok ({ s with last_modified := fs.dirMtime }, r,
          [.generateContext, .saveContext])
      else
        match s.file_id with
        | none => .error "AssertionError: file_id"
        | some fileId =>
          let (r1, _) := update_file_from_memory fileId content r
          let s2 : StateRecord :=
            { s with last_modified := fs.dirMtime, md5 := some currentMd5 }
          match get_chat_ia_studio chatId r1 with
          | none =>
            .ok (s2, r1,
              [.generateContext, .saveContext, .updateFile fileId,
               .getContent chatId])
          | some chat =>
            match updateTokenChunk fileId newTokens chat.chunks with
            | some newChunks =>
              let (r2, _) := update_chat_file chatId { chat with chunks := newChunks } r1
              .ok (s2, r2,
                [.generateContext, .saveContext, .updateFile fileId,
                 .getContent chatId, .updateFile chatId])
            | none =>
              .ok (s2, r1,
                [.generateContext, .saveContext, .updateFile fileId,
                 .getContent chatId])
    else
      .ok (s, r, [])

/-- The info.json record of a snapshot
(`SnapshotManager.create_snapshot`). -/
structure SnapInfo where
  timestamp : String
  humanTime : String
  driveModifiedTime : String
  contextMd5 : String
  message : Option String
deriving DecidableEq, Repr

/-- One snapshot directory on disk: the chat.prompt bytes and the info.json
record, each present only once written. -/
structure SnapDir where
  chatPrompt : Option String
  info : Option SnapInfo
deriving DecidableEq, Repr

/-- The local on-disk layout the snapshot manager works in: the snapshot
directories keyed by timestamp id, the content store keyed by md5, and the
current cached context text (base_dir/project_context.txt) when present. -/
structure LocalStore where
  snapDirs : List (String × SnapDir)
  contextStore : List (String × String)
  currentContext : Option String
deriving DecidableEq, Repr

/-- `SnapshotManager._ensure_context_stored`: reuse the stored entry when it
exists, else copy the cached context into the store; none when no cached
copy exists either. -/
def ensure_context_stored (md5 : String) (fsl : LocalStore) : Option LocalStore :=
  if ((fsl.contextStore.find? (fun p => p.1 = md5)).isSome) then some fsl
  else
    match fsl.currentContext with
    | some c => some { fsl with contextStore := setAssoc md5 c fsl.contextStore }
    | none => none

/-- `SnapshotManager.create_snapshot`: `now` and `humanNow` stand for the
two datetime.now() renderings.  The snapshot folder is created (mkdir with
exist_ok) before any check; then the state md5 is required, the context is
ensured in the store, the transcript is downloaded, and only on a successful
non-empty download are chat.prompt and info.json written. -/
def create_snapshot (now humanNow : String) (modTime : String)
    (message : Option String) (s : StateRecord) (r : Remote)
    (fsl : LocalStore) : LocalStore × List DriveOp :=
  let snap0 := ((fsl.snapDirs.find? (fun p => p.1 = now)).map (·.2)).getD ⟨none, none⟩
  let fsl1 := { fsl with snapDirs := setAssoc now snap0 fsl.snapDirs }
  match s.md5 with
  | none => (fsl1, [])
  | some md5 =>
    match ensure_context_stored md5 fsl1 with
    | none => (fsl1, [])
    | some fsl2 =>
      let chatId := s.chat_id.getD ""
      match get_file_content chatId r with
      | none => (fsl2, [.getContent chatId])
      | some bytes =>
        if bytes.isEmpty then (fsl2, [.getContent chatId])
        else
          let snap : SnapDir :=
            ⟨some bytes, some ⟨now, humanNow, modTime, md5, message⟩⟩
          ({ fsl2 with snapDirs := setAssoc now snap fsl2.snapDirs },
           [.getContent chatId])

/-- `SnapshotManager.get_all_snapshot_ids`: the timestamps of the snapshot
folders that contain an info.json, newest first. -/
def get_all_snapshot_ids (fsl : LocalStore) : List String :=
  List.insertionSort (fun a b : String => ¬ a < b)
    ((fsl.snapDirs.filter (fun p => p.2.info.isSome)).map (·.1))

/-- `SnapshotManager.restore_snapshot`: fail (False) when the folder, its
info.json, the referenced content-store entry, or the chat.prompt file is
missing, in that order, touching nothing; otherwise push the stored context
and the snapshot transcript to the two remote documents (results ignored),
refresh the local cache, and set state md5 to the restored hash.  The raw
dictionary accesses state["file_id"] and state["chat_id"] raise KeyError
(Except.error) when absent. -/
def restore_snapshot (ts : String) (s : StateRecord) (r : Remote)
    (fsl : LocalStore) :
    Except String (Bool × StateRecord × Remote × LocalStore × List DriveOp) :=
  match (fsl.snapDirs.find? (fun p => p.1 = ts)).map (·.2) with
  | none => .ok (false, s, r, fsl, [])
  | some snap =>
    match snap.info with
    | none => .ok (false, s, r, fsl, [])
    | some info =>
      match (fsl.contextStore.find? (fun p => p.1 = info.contextMd5)).map (·.2) with
      | none => .ok (false, s, r, fsl, [])
      | some ctx =>
        match snap.chatPrompt with
        | none => .ok (false, s, r, fsl, [])
        | some chatContent =>
          match s.file_id with
          | none => .error "KeyError: file_id"
          | some fileId =>
            match s.chat_id with
            | none => .error "KeyError: chat_id"
            | some chatId =>
              let (r1, _) := update_file_from_memory fileId ctx r
              let (r2, _) := update_file_from_memory chatId chatContent r1
              let fsl2 := { fsl with currentContext := some ctx }
              let s2 := { s with md5 := some info.contextMd5 }
              .ok (true, s2, r2, fsl2,
                [.updateFile fileId, .updateFile chatId])

lemma find_setAssoc {α : Type} (id : String) (v : α) :
    ∀ l : List (String × α),
      ((setAssoc id v l).find? (fun p => p.1 = id)).map (·.2) = some v := by
  intro l
  induction l with
  | nil => simp [setAssoc, List.find?]
  | cons p rest ih =>
    obtain ⟨k, w⟩ := p
    by_cases hk : k = id
    · simp [setAssoc, hk, List.find?]
    · simpa [setAssoc, if_neg hk, List.find?_cons, hk] using ih

lemma removeLoop_eq_specFn (marker : String) (l : List Chunk) :
    removeLoop marker false l = removeMarkedTasksSpecFn marker l := by
  generalize hn : l.length = n
  induction n using Nat.strong_induction_on generalizing l with
  | _ n ih =>
    match l with
    | [] => simp [removeLoop, removeMarkedTasksSpecFn]
    | c :: rest =>
      by_cases hm : isMarkerText marker c
      · match rest with
        | [] => simp [removeLoop, removeMarkedTasksSpecFn, hm]
        | c2 :: rest2 =>
          by_cases hr : c2.role = Role.model
          · have h2 := ih rest2.length (by subst hn; simp; omega) rest2 rfl
            simp [removeLoop, removeMarkedTasksSpecFn, hm, hr, h2]
          · have h2 := ih (c2 :: rest2).length (by subst hn; simp) (c2 :: rest2) rfl
            simp [removeLoop, removeMarkedTasksSpecFn, hm, hr, h2]
      · have h2 := ih rest.length (by subst hn; simp) rest rfl
        rw [removeMarkedTasksSpecFn.eq_def]
        simp [removeLoop, hm, h2]

lemma repairChunk_fst_idem (c : Chunk) :
    repairChunk (repairChunk c).1 = ((repairChunk c).1, 0) := by
  cases c with
  | text r t tk fr =>
    by_cases h : fr = some "STOP" <;> simp [repairChunk, h]
  | doc r d tc => simp [repairChunk]
  | image r i tc => simp [repairChunk]

lemma repairChunks_idem_zero (l : List Chunk) :
    (repairChunks (repairChunks l).1).2 = 0 := by
  induction l with
  | nil => simp [repairChunks]
  | cons c rest ih =>
    have h1 : repairChunks (c :: rest) =
        ((repairChunk c).1 :: (repairChunks rest).1,
         (repairChunk c).2 + (repairChunks rest).2) := by
      simp [repairChunks]
    rw [h1]
    have h2 : repairChunks ((repairChunk c).1 :: (repairChunks rest).1) =
        ((repairChunk (repairChunk c).1).1 :: (repairChunks (repairChunks rest).1).1,
         (repairChunk (repairChunk c).1).2 + (repairChunks (repairChunks rest).1).2) := by
      simp [repairChunks]
    rw [h2]
    simp [repairChunk_fst_idem, ih]

lemma repairChunks_all_stop (l : List Chunk) :
    ∀ (role : Role) (t : String) (tk : Option Nat) (fr : Option String),
      Chunk.text role t tk fr ∈ (repairChunks l).1 → fr = some "STOP" := by
  induction l with
  | nil => simp [repairChunks]
  | cons c rest ih =>
    intro role t tk fr hmem
    simp only [repairChunks, List.mem_cons] at hmem
    rcases hmem with h | h
    · cases c with
      | text r2 t2 tk2 fr2 =>
        by_cases h2 : fr2 = some "STOP" <;>
          simp [repairChunk, h2, Chunk.text.injEq] at h <;>
          simp [h.2.2.2, h2]
      | doc r2 d2 tc2 => simp [repairChunk] at h
      | image r2 i2 tc2 => simp [repairChunk] at h
    · exact ih role t tk fr h

lemma repairChunk_zero (c : Chunk) (h : (repairChunk c).2 = 0) :
    (repairChunk c).1 = c := by
  cases c with
  | text r t tk fr =>
    by_cases h2 : fr = some "STOP"
    · simp [repairChunk, h2]
    · simp [repairChunk, h2] at h
  | doc r d tc => simp [repairChunk]
  | image r i tc => simp [repairChunk]

lemma repairChunks_zero_eq (l : List Chunk) (h : (repairChunks l).2 = 0) :
    (repairChunks l).1 = l := by
  induction l with
  | nil => simp [repairChunks]
  | cons c rest ih =>
    simp only [repairChunks] at h ⊢
    have hc : (repairChunk c).2 = 0 := by omega
    have hr : (repairChunks rest).2 = 0 := by omega
    simp [repairChunk_zero c hc, ih hr]

lemma clearBody_head (chat : Chat) (c : Chunk) (rest : List Chunk)
    (h : chat.chunks = c :: rest) :
    ∃ p, clearBody chat = .ok p ∧ p.1.chunks.head? = some c := by
  unfold clearBody
  rw [h]
  simp only [List.isEmpty_cons, Bool.false_eq_true, if_false]
  cases hcut : clearCutIdx (c :: rest) with
  | none => exact ⟨(chat, false), rfl, by simp [h]⟩
  | some cut =>
    simp only [List.take_succ_cons]
    by_cases hlen : (c :: List.take cut rest).length = (c :: rest).length
    · exact ⟨(chat, true), by rw [if_pos hlen], by simp [h]⟩
    · exact ⟨({ chat with chunks := c :: List.take cut rest }, true),
        by rw [if_neg hlen], rfl⟩

lemma removeLoop_head_not_marker (marker : String) (c : Chunk)
    (rest : List Chunk) (h : isMarkerText marker c = false) :
    ((removeLoop marker false (c :: rest)).1).head? = some c := by
  simp [removeLoop, h]

/-- C8: remove_marked_tasks removes, for each TextBlock containing the
marker, exactly one immediately following block when and only when that
block has role model, counting both the marker block and the removed
response: the source scanning loop coincides with the spec-worded pairing
recursion on every block list, and on the example
[Text(marker), Text(model, reply), Text(user, x)] it removes 2 blocks and
leaves [Text(user, x)]. -/
theorem remove_marked_tasks_pairing :
    (∀ (marker : String) (l : List Chunk),
      removeLoop marker false l = removeMarkedTasksSpecFn marker l)
    ∧ removeLoop "[COMMIT_TASK]" false
        [Chunk.text .user "[COMMIT_TASK] write a commit message" none none,
         Chunk.text .model "reply" none none,
         Chunk.text .user "x" none none] =
      ([Chunk.text .user "x" none none], 2) :=
  ⟨fun marker l => removeLoop_eq_specFn marker l, by decide⟩

/-- C9: repair_chat_structure is idempotent: the repair pass run on its own
output reports zero fixes, the first pass leaves every ChunksText with
finishReason STOP, and at the operation level a second repair_chat_structure
run on the remote state produced by a successful first run returns
fixed_count 0. -/
theorem repair_finish_markers_idempotent :
    (∀ l : List Chunk, (repairChunks (repairChunks l).1).2 = 0)
    ∧ (∀ (l : List Chunk) (role : Role) (t : String) (tk : Option Nat)
        (fr : Option String),
        Chunk.text role t tk fr ∈ (repairChunks l).1 → fr = some "STOP")
    ∧ (∀ (r : Remote) (cid : String) (chat : Chat),
        get_chat_ia_studio cid r = some chat → cid ∉ r.failUpdate →
        (repair_chat_structure cid (repair_chat_structure cid r).1).2.2 = 0) := by
  refine ⟨repairChunks_idem_zero, repairChunks_all_stop, ?_⟩
  intro r cid chat h1 h2
  have hread : cid ∉ r.failRead := by
    intro hmem
    simp [get_chat_ia_studio, hmem] at h1
  have hfirst : repair_chat_structure cid r =
      ({ r with chats :=
          setAssoc cid { chat with chunks := (repairChunks chat.chunks).1 } r.chats },
       [.getContent cid, .updateFile cid],
       (repairChunks chat.chunks).2) := by
    simp [repair_chat_structure, modify_chat, h1, repairBody, update_chat_file, h2]
  rw [hfirst]
  have hget2 : get_chat_ia_studio cid
      { r with chats :=
          setAssoc cid { chat with chunks := (repairChunks chat.chunks).1 } r.chats } =
      some { chat with chunks := (repairChunks chat.chunks).1 } := by
    simp [get_chat_ia_studio, hread, find_setAssoc]
  simp [repair_chat_structure, modify_chat, hget2, repairBody, update_chat_file, h2,
    repairChunks_idem_zero]

/-- Witness for C9: a concrete remote holding one chat with one text block
whose finishReason is missing; the second repair run reports zero fixes. -/
theorem repair_finish_markers_idempotent_witness :
    (repair_chat_structure "c"
      (repair_chat_structure "c"
        ⟨[], [("c", ⟨[Chunk.text .user "hi" none none]⟩)], [], []⟩).1).2.2 = 0 :=
  repair_finish_markers_idempotent.2.2
    ⟨[], [("c", ⟨[Chunk.text .user "hi" none none]⟩)], [], []⟩ "c"
    ⟨[Chunk.text .user "hi" none none]⟩ (by decide) (by simp)

/-- Counterexample for C3: on the one-element block list whose index-0 block
is a marker-containing TextBlock, remove_commit_tasks removes the block at
index 0 (the scanning loop removes marker blocks at any index, index 0
included), so the input head is not present at index 0 of the output; the
operation on a remote holding that chat leaves the stored chunk list
empty. -/
theorem protected_prefix_counterexample :
    removeLoop "[COMMIT_TASK]" false
        [Chunk.text .user "[COMMIT_TASK] suggest a commit" none none] = ([], 1)
    ∧ ((remove_commit_tasks "[COMMIT_TASK]" "c"
          ⟨[], [("c", ⟨[Chunk.text .user "[COMMIT_TASK] suggest a commit" none none]⟩)],
           [], []⟩).1.chats.find? (fun p => p.1 = "c")).map (·.2) = some ⟨[]⟩ :=
  ⟨by decide, by decide⟩

/-- C3 amended: the block at index 0 survives at index 0 through both editor
operations, with the proviso the counterexample forces: trim
(clear_chat_ia_studio) never removes index 0 on any non-empty block list,
and remove_commit_tasks preserves index 0 whenever the index-0 block is not
itself a marker-containing TextBlock. -/
theorem protected_prefix_amended :
    ∀ (marker : String) (c : Chunk) (rest : List Chunk),
      (∀ chat : Chat, chat.chunks = c :: rest →
        ∃ p, clearBody chat = .ok p ∧ p.1.chunks.head? = some c)
      ∧ (isMarkerText marker c = false →
        ((removeLoop marker false (c :: rest)).1).head? = some c) :=
  fun marker c rest =>
    ⟨fun chat h => clearBody_head chat c rest h,
     fun h => removeLoop_head_not_marker marker c rest h⟩

/-- Witness for C3 amended: a document block at index 0 survives both the
trim body and the removal loop. -/
theorem protected_prefix_amended_witness :
    (∃ p, clearBody ⟨[Chunk.doc .user "f" 1]⟩ = .ok p ∧
        p.1.chunks.head? = some (Chunk.doc .user "f" 1))
    ∧ ((removeLoop "[COMMIT_TASK]" false [Chunk.doc .user "f" 1]).1).head? =
        some (Chunk.doc .user "f" 1) :=
  ⟨(protected_prefix_amended "[COMMIT_TASK]" (Chunk.doc .user "f" 1) []).1
      ⟨[Chunk.doc .user "f" 1]⟩ rfl,
   (protected_prefix_amended "[COMMIT_TASK]" (Chunk.doc .user "f" 1) []).2 (by decide)⟩

/-- Counterexample for C2: on a chat that is already in the desired shape
(first model-role block closes the setup prefix, nothing to trim), the
clear operation reports success ("El chat ya está limpio", True) yet a
remote write of the transcript is still issued: modify_chat writes the
document back on every non-exception exit, so the trace contains an update
of the chat document even though the stored content is unchanged. -/
theorem editor_no_change_write_counterexample :
    (clear_chat_ia_studio "c"
       ⟨[], [("c", ⟨[Chunk.doc .user "f" 1, Chunk.text .user "hi" none none,
                     Chunk.text .model "ok" none (some "STOP")]⟩)], [], []⟩).2.2 = true
    ∧ writesOf (clear_chat_ia_studio "c"
       ⟨[], [("c", ⟨[Chunk.doc .user "f" 1, Chunk.text .user "hi" none none,
                     Chunk.text .model "ok" none (some "STOP")]⟩)], [], []⟩).2.1 =
        [DriveOp.updateFile "c"]
    ∧ ((clear_chat_ia_studio "c"
       ⟨[], [("c", ⟨[Chunk.doc .user "f" 1, Chunk.text .user "hi" none none,
                     Chunk.text .model "ok" none (some "STOP")]⟩)], [], []⟩).1.chats.find?
          (fun p => p.1 = "c")).map (·.2) =
        some ⟨[Chunk.doc .user "f" 1, Chunk.text .user "hi" none none,
               Chunk.text .model "ok" none (some "STOP")]⟩ :=
  ⟨by decide, by decide, by decide⟩

/-- C2 amended: when the computed new block list equals the input, each
Transcript Editor operation detects and reports the no-change case to the
caller (clear returns True, remove returns 0 removals, repair returns 0
fixes) and the stored chat content is left equal to what was downloaded,
but a remote write is still issued: modify_chat unconditionally writes the
document back on normal exit, so the trace contains an update of the chat
document. -/
theorem editor_no_change_still_writes :
    ∀ (r : Remote) (cid : String) (chat : Chat) (marker : String),
      get_chat_ia_studio cid r = some chat → cid ∉ r.failUpdate →
      ((clearBody chat = .ok (chat, true)) →
        clear_chat_ia_studio cid r =
          ({ r with chats := setAssoc cid chat r.chats },
           [.getContent cid, .updateFile cid], true))
      ∧ (((removeLoop marker false chat.chunks).2 = 0) →
        remove_commit_tasks marker cid r =
          ({ r with chats := setAssoc cid chat r.chats },
           [.getContent cid, .updateFile cid], 0))
      ∧ (((repairChunks chat.chunks).2 = 0) →
        repair_chat_structure cid r =
          ({ r with chats := setAssoc cid chat r.chats },
           [.getContent cid, .updateFile cid], 0)) := by
  intro r cid chat marker hg hu
  refine ⟨?_, ?_, ?_⟩
  · intro hbody
    simp [clear_chat_ia_studio, modify_chat, hg, hbody, update_chat_file, hu]
  · intro hn
    have hbody : removeBody marker chat = .ok (chat, 0) := by
      unfold removeBody
      rcases hres : removeLoop marker false chat.chunks with ⟨nc, n⟩
      rw [hres] at hn
      simp only at hn
      subst hn
      simp
    simp [remove_commit_tasks, modify_chat, hg, hbody, update_chat_file, hu]
  · intro hz
    have hfix := repairChunks_zero_eq chat.chunks hz
    have hbody : repairBody chat = .ok (chat, 0) := by
      have hres : repairChunks chat.chunks = (chat.chunks, 0) := by
        rw [← Prod.mk.eta (p := repairChunks chat.chunks), hfix, hz]
      unfold repairBody
      rw [hres]
    simp [repair_chat_structure, modify_chat, hg, hbody, update_chat_file, hu]

/-- Witness for C2 amended: a chat with a single already-repaired model
block; the no-change hypotheses hold and clear and remove both report their
no-change value while the trace still carries a write. -/
theorem editor_no_change_still_writes_witness :
    clear_chat_ia_studio "c"
        ⟨[], [("c", ⟨[Chunk.text .model "ok" none (some "STOP")]⟩)], [], []⟩ =
      (⟨[], [("c", ⟨[Chunk.text .model "ok" none (some "STOP")]⟩)], [], []⟩,
       [.getContent "c", .updateFile "c"], true)
    ∧ remove_commit_tasks "[COMMIT_TASK]" "c"
        ⟨[], [("c", ⟨[Chunk.text .model "ok" none (some "STOP")]⟩)], [], []⟩ =
      (⟨[], [("c", ⟨[Chunk.text .model "ok" none (some "STOP")]⟩)], [], []⟩,
       [.getContent "c", .updateFile "c"], 0) :=
  ⟨(editor_no_change_still_writes
      ⟨[], [("c", ⟨[Chunk.text .model "ok" none (some "STOP")]⟩)], [], []⟩ "c"
      ⟨[Chunk.text .model "ok" none (some "STOP")]⟩ "[COMMIT_TASK]"
      (by decide) (by simp)).1 (by rfl),
   (editor_no_change_still_writes
      ⟨[], [("c", ⟨[Chunk.text .model "ok" none (some "STOP")]⟩)], [], []⟩ "c"
      ⟨[Chunk.text .model "ok" none (some "STOP")]⟩ "[COMMIT_TASK]"
      (by decide) (by simp)).2.1 (by decide)⟩

/-- C10: for every operation run through the modify_chat context manager,
if the body raises while computing the modification, no remote write-back
occurs: the remote store is returned exactly as it was, the trace holds
only the initial download, and the exception propagates, so the in-memory
changes are discarded and the remote chat document is left exactly as
downloaded. -/
theorem modify_chat_error_discards :
    ∀ {α : Type} (cid : String) (r : Remote)
      (body : Chat → Except String (Chat × α)) (chat : Chat) (e : String),
      get_chat_ia_studio cid r = some chat → body chat = .error e →
      modify_chat cid r body = (r, [.getContent cid], .error e) := by
  intro α cid r body chat e hg hb
  simp [modify_chat, hg, hb]

/-- Witness for C10: a body that always raises leaves a concrete remote
untouched with no write in the trace. -/
theorem modify_chat_error_discards_witness :
    modify_chat "c" ⟨[], [("c", ⟨[]⟩)], [], []⟩
        (fun _ => (.error "boom" : Except String (Chat × Bool))) =
      (⟨[], [("c", ⟨[]⟩)], [], []⟩, [.getContent "c"], .error "boom") :=
  modify_chat_error_discards "c" ⟨[], [("c", ⟨[]⟩)], [], []⟩
    (fun _ => (.error "boom" : Except String (Chat × Bool))) ⟨[]⟩ "boom"
    (by decide) rfl

/-- C7: when modifications are detected but the regenerated hash equals the
stored one, update_context returns with only last_modified advanced (every
other field unchanged), performs no remote call at all (the trace holds only
the local regeneration and cache write), and leaves the remote store
untouched. -/
theorem touched_identical_updates_only_timestamp :
    ∀ (hash : String → String) (fs : FS) (r : Remote) (s : StateRecord)
      (cid : String),
      s.chat_id = some cid →
      has_files_modified_since s.last_modified fs = true →
      s.md5 = some (hash fs.genContent) →
      update_context hash fs r s =
        .ok ({ s with last_modified := fs.dirMtime }, r,
          [.generateContext, .saveContext]) := by
  intro hash fs r s cid hc hmod hmd5
  simp [update_context, hc, hmod, hmd5]

/-- Witness for C7: one non-ignored file newer than the saved timestamp and
a state already holding the hash of the regenerated content. -/
theorem touched_identical_updates_only_timestamp_witness :
    update_context id ⟨[(false, 5)], 3, "X", 7⟩ ⟨[], [], [], []⟩
        ⟨0, some "X", some "c", some "f"⟩ =
      .ok (⟨3, some "X", some "c", some "f"⟩, ⟨[], [], [], []⟩,
        [.generateContext, .saveContext]) :=
  touched_identical_updates_only_timestamp id ⟨[(false, 5)], 3, "X", 7⟩
    ⟨[], [], [], []⟩ ⟨0, some "X", some "c", some "f"⟩ "c" rfl (by decide) rfl

lemma update_context_second_no_writes (hash : String → String) (fs : FS)
    (r : Remote) (s : StateRecord) (cid : String)
    (hc : s.chat_id = some cid) (hm : s.md5 = some (hash fs.genContent))
    (hl : s.last_modified = fs.dirMtime) :
    ∃ t2, update_context hash fs r s = .ok (s, r, t2) ∧ writesOf t2 = [] := by
  by_cases hmod : has_files_modified_since s.last_modified fs
  · refine ⟨[.generateContext, .saveContext], ?_,
      by simp [writesOf, DriveOp.isWrite]⟩
    have hseq : ({ s with last_modified := fs.dirMtime } : StateRecord) = s := by
      cases s with
      | mk a b c d => simp_all
    calc update_context hash fs r s
        = .ok ({ s with last_modified := fs.dirMtime }, r,
            [.generateContext, .saveContext]) := by
          simp [update_context, hc, hmod, hm]
      _ = .ok (s, r, [.generateContext, .saveContext]) := by rw [hseq]
  · exact ⟨[], by simp [update_context, hc, hmod], by simp [writesOf]⟩

lemma update_context_ok_inv {hash : String → String} {fs : FS} {r r1 : Remote}
    {s s1 : StateRecord} {t1 : List DriveOp}
    (h : update_context hash fs r s = .ok (s1, r1, t1)) :
    (s1 = s ∧ r1 = r ∧ has_files_modified_since s.last_modified fs = false)
    ∨ (s1.chat_id = s.chat_id ∧ s1.md5 = some (hash fs.genContent)
       ∧ s1.last_modified = fs.dirMtime) := by
  cases hc : s.chat_id with
  | none => simp [update_context, hc] at h
  | some cid =>
    by_cases hmod : has_files_modified_since s.last_modified fs
    · right
      by_cases hm : s.md5 = some (hash fs.genContent)
      · simp only [update_context, hc, hmod, if_true, hm, if_pos] at h
        simp only [Except.ok.injEq, Prod.mk.injEq] at h
        obtain ⟨h1, -, -⟩ := h
        subst h1
        exact ⟨by simp, by simp [hm], by simp⟩
      · cases hf : s.file_id with
        | none => simp [update_context, hc, hmod, hm, hf] at h
        | some fid =>
          simp [update_context, hc, hmod, hm, hf] at h
          split at h
          · simp only [Except.ok.injEq, Prod.mk.injEq] at h
            obtain ⟨h1, -, -⟩ := h
            subst h1
            exact ⟨by simp [hc], by simp, by simp⟩
          · split at h <;>
              (simp only [Except.ok.injEq, Prod.mk.injEq] at h ;
               obtain ⟨h1, -, -⟩ := h ;
               subst h1 ;
               exact ⟨by simp [hc], by simp, by simp⟩)
    · left
      simp only [update_context, hc] at h
      rw [if_neg hmod] at h
      simp only [Except.ok.injEq, Prod.mk.injEq] at h
      obtain ⟨h1, h2, -⟩ := h
      exact ⟨h1.symm, h2.symm, by simpa using hmod⟩

/-- C6: synchronize is idempotent.  First, when no non-ignored file under
the scan root is newer than state.last_modified, update_context returns the
state and the remote unchanged with an empty trace (no remote call, no
context regeneration).  Second, for any successful call, running
update_context again on its resulting state over the same filesystem
performs zero remote writes and changes nothing. -/
theorem synchronize_idempotent :
    (∀ (hash : String → String) (fs : FS) (r : Remote) (s : StateRecord)
       (cid : String),
       s.chat_id = some cid →
       has_files_modified_since s.last_modified fs = false →
       update_context hash fs r s = .ok (s, r, []))
    ∧ (∀ (hash : String → String) (fs : FS) (r r1 : Remote)
        (s s1 : StateRecord) (t1 : List DriveOp),
        update_context hash fs r s = .ok (s1, r1, t1) →
        ∃ t2, update_context hash fs r1 s1 = .ok (s1, r1, t2) ∧
          writesOf t2 = []) := by
  constructor
  · intro hash fs r s cid hc hmod
    simp only [update_context, hc]
    rw [if_neg (by simp [hmod])]
  · intro hash fs r r1 s s1 t1 h
    cases hc : s.chat_id with
    | none => simp [update_context, hc] at h
    | some cid =>
      rcases update_context_ok_inv h with ⟨hs, hr, hmod⟩ | ⟨hcid, hm, hl⟩
      · subst hs
        subst hr
        refine ⟨[], ?_, by simp [writesOf]⟩
        simp only [update_context, hc]
        rw [if_neg (by simp [hmod])]
      · exact update_context_second_no_writes hash fs r1 s1 cid
          (hcid.trans hc) hm hl

/-- Witness for C6: both parts applied at a concrete quiet filesystem (no
file newer than the saved timestamp) and at the call it produces. -/
theorem synchronize_idempotent_witness :
    update_context id ⟨[(false, 5)], 3, "X", 7⟩ ⟨[], [], [], []⟩
        ⟨9, some "m", some "c", some "f"⟩ =
      .ok (⟨9, some "m", some "c", some "f"⟩, ⟨[], [], [], []⟩, [])
    ∧ ∃ t2, update_context id ⟨[(false, 5)], 3, "X", 7⟩ ⟨[], [], [], []⟩
        ⟨9, some "m", some "c", some "f"⟩ =
      .ok (⟨9, some "m", some "c", some "f"⟩, ⟨[], [], [], []⟩, t2) ∧
        writesOf t2 = [] :=
  ⟨synchronize_idempotent.1 id ⟨[(false, 5)], 3, "X", 7⟩ ⟨[], [], [], []⟩
      ⟨9, some "m", some "c", some "f"⟩ "c" rfl (by decide),
   synchronize_idempotent.2 id ⟨[(false, 5)], 3, "X", 7⟩ ⟨[], [], [], []⟩
      ⟨[], [], [], []⟩ ⟨9, some "m", some "c", some "f"⟩
      ⟨9, some "m", some "c", some "f"⟩ []
      (synchronize_idempotent.1 id ⟨[(false, 5)], 3, "X", 7⟩ ⟨[], [], [], []⟩
        ⟨9, some "m", some "c", some "f"⟩ "c" rfl (by decide))⟩

/-- Counterexample for C1: a concrete run in which the remote push of the
regenerated context fails (the context file id is in the failing-update
set), yet update_context returns successfully rather than surfacing an
error, and the local state IS advanced: md5 becomes the new hash and
last_modified the scan-root mtime, while the remote context document still
holds its old content — so a retry would not re-attempt the push. -/
theorem push_failure_counterexample :
    update_context (fun t => String.append "H#" t)
        ⟨[(false, 5)], 3, "CTX", 7⟩
        ⟨[("f1", "old")], [("chat1", ⟨[Chunk.doc .user "f1" 1]⟩)], [], ["f1"]⟩
        ⟨0, some "OLD", some "chat1", some "f1"⟩ =
      .ok (⟨3, some "H#CTX", some "chat1", some "f1"⟩,
           ⟨[("f1", "old")], [("chat1", ⟨[Chunk.doc .user "f1" 7]⟩)], [], ["f1"]⟩,
           [.generateContext, .saveContext, .updateFile "f1",
            .getContent "chat1", .updateFile "chat1"])
    ∧ (some "H#CTX" : Option String) ≠ some "OLD" :=
  ⟨by rfl, by decide⟩

/-- C1 amended: when the remote push of the regenerated context fails, the
error is logged inside the Drive manager but update_context ignores the
push result and returns successfully; the StateRecord IS advanced (md5 is
set to the new hash and last_modified to the scan-root mtime), so a retry
will not re-attempt the same push, and the remote context document keeps
its previous content. -/
theorem push_failure_advances_state :
    ∀ (hash : String → String) (fs : FS) (r : Remote) (s : StateRecord)
      (cid fid : String),
      s.chat_id = some cid → s.file_id = some fid →
      has_files_modified_since s.last_modified fs = true →
      s.md5 ≠ some (hash fs.genContent) →
      fid ∈ r.failUpdate →
      ∃ r2 tr, update_context hash fs r s =
          .ok ({ s with
                 last_modified := fs.dirMtime
                 md5 := some (hash fs.genContent) }, r2, tr)
        ∧ r2.files = r.files := by
  intro hash fs r s cid fid hc hf hmod hm hfail
  have hup : update_file_from_memory fid fs.genContent r = (r, false) := by
    simp [update_file_from_memory, hfail]
  cases hg : get_chat_ia_studio cid r with
  | none =>
    refine ⟨r, [.generateContext, .saveContext, .updateFile fid,
      .getContent cid], ?_, rfl⟩
    simp [update_context, hc, hmod, hm, hf, hup, hg]
  | some chat =>
    cases ht : updateTokenChunk fid fs.genTokens chat.chunks with
    | none =>
      refine ⟨r, [.generateContext, .saveContext, .updateFile fid,
        .getContent cid], ?_, rfl⟩
      simp [update_context, hc, hmod, hm, hf, hup, hg, ht]
    | some newChunks =>
      refine ⟨(update_chat_file cid { chat with chunks := newChunks } r).1,
        [.generateContext, .saveContext, .updateFile fid,
         .getContent cid, .updateFile cid], ?_, ?_⟩
      · simp [update_context, hc, hmod, hm, hf, hup, hg, ht]
      · unfold update_chat_file
        split <;> rfl

/-- Witness for C1 amended: the concrete failing-push run. -/
theorem push_failure_advances_state_witness :
    ∃ r2 tr, update_context (fun t => String.append "H#" t)
        ⟨[(false, 5)], 3, "CTX", 7⟩
        ⟨[("f1", "old")], [("chat1", ⟨[Chunk.doc .user "f1" 1]⟩)], [], ["f1"]⟩
        ⟨0, some "OLD", some "chat1", some "f1"⟩ =
      .ok (⟨3, some "H#CTX", some "chat1", some "f1"⟩, r2, tr)
      ∧ r2.files = [("f1", "old")] :=
  push_failure_advances_state (fun t => String.append "H#" t)
    ⟨[(false, 5)], 3, "CTX", 7⟩
    ⟨[("f1", "old")], [("chat1", ⟨[Chunk.doc .user "f1" 1]⟩)], [], ["f1"]⟩
    ⟨0, some "OLD", some "chat1", some "f1"⟩ "chat1" "f1" rfl rfl
    (by decide) (by decide) (by decide)

lemma ensure_context_stored_snapDirs {md5 : String} {x y : LocalStore}
    (h : ensure_context_stored md5 x = some y) : y.snapDirs = x.snapDirs := by
  unfold ensure_context_stored at h
  split at h
  · simp only [Option.some.injEq] at h
    rw [← h]
  · split at h
    · simp only [Option.some.injEq] at h
      rw [← h]
    · simp at h

lemma mem_setAssoc_of_not_found {α : Type} (id : String) (v : α) :
    ∀ l : List (String × α), l.find? (fun p => p.1 = id) = none →
      ∀ p ∈ setAssoc id v l, p.1 = id → p.2 = v := by
  intro l
  induction l with
  | nil =>
    intro _ p hp _
    simp [setAssoc] at hp
    rw [hp]
  | cons q rest ih =>
    obtain ⟨k, w⟩ := q
    intro hfind p hp hid
    rw [List.find?_cons] at hfind
    by_cases hk : k = id
    · simp [hk] at hfind
    · have hd : decide (k = id) = false := by simp [hk]
      rw [hd] at hfind
      simp only [setAssoc, if_neg hk, List.mem_cons] at hp
      rcases hp with h | h
      · rw [h] at hid
        exact absurd hid hk
      · exact ih hfind p h hid

/-- Counterexample for C4: a concrete create_snapshot run in which the
transcript download fails; afterwards the snapshot directory for the new
timestamp exists on disk but holds neither metadata nor transcript bytes —
neither the full snapshot record nor nothing, contradicting the claimed
atomicity (the source runs mkdir before any check or download). -/
theorem snapshot_partial_dir_counterexample :
    (create_snapshot "t1" "h1" "mt" none
        ⟨0, some "m", some "c", some "f"⟩
        ⟨[("c", "chatbytes")], [], ["c"], []⟩
        ⟨[], [("m", "CTX")], none⟩).1.snapDirs = [("t1", ⟨none, none⟩)]
    ∧ (create_snapshot "t1" "h1" "mt" none
        ⟨0, some "m", some "c", some "f"⟩
        ⟨[("c", "chatbytes")], [], ["c"], []⟩
        ⟨[], [("m", "CTX")], none⟩).2 = [.getContent "c"] :=
  ⟨by decide, by decide⟩

/-- C4 amended: when the transcript download fails, create_snapshot writes
no snapshot metadata and no transcript bytes, but the snapshot directory
itself is created (empty) before the download and remains on disk; since
snapshot listing only reports directories holding an info.json, the partial
directory is never listed as a snapshot. -/
theorem snapshot_download_failure_empty_dir :
    ∀ (now humanNow modTime : String) (message : Option String)
      (s : StateRecord) (r : Remote) (fsl : LocalStore) (md5 cid : String)
      (fsl2 : LocalStore),
      s.md5 = some md5 →
      s.chat_id = some cid →
      fsl.snapDirs.find? (fun p => p.1 = now) = none →
      ensure_context_stored md5
        { fsl with snapDirs := setAssoc now ⟨none, none⟩ fsl.snapDirs } =
        some fsl2 →
      get_file_content cid r = none →
      create_snapshot now humanNow modTime message s r fsl =
        (fsl2, [.getContent cid])
      ∧ (fsl2.snapDirs.find? (fun p => p.1 = now)).map (·.2) =
          some ⟨none, none⟩
      ∧ now ∉ get_all_snapshot_ids fsl2 := by
  intro now humanNow modTime message s r fsl md5 cid fsl2 h1 h2 h3 h4 h5
  have hdirs : fsl2.snapDirs = setAssoc now ⟨none, none⟩ fsl.snapDirs :=
    ensure_context_stored_snapDirs h4
  refine ⟨?_, ?_, ?_⟩
  · simp [create_snapshot, h3, h1, h2, h4, h5]
  · rw [hdirs]
    exact find_setAssoc now ⟨none, none⟩ fsl.snapDirs
  · intro hmem
    unfold get_all_snapshot_ids at hmem
    have hmem2 := (List.perm_insertionSort (fun a b : String => ¬ a < b)
      ((fsl2.snapDirs.filter (fun p => p.2.info.isSome)).map (·.1))).mem_iff.mp hmem
    obtain ⟨p, hp, hp1⟩ := List.mem_map.mp hmem2
    obtain ⟨hpin, hpsome⟩ := List.mem_filter.mp hp
    rw [hdirs] at hpin
    have hpe := mem_setAssoc_of_not_found now ⟨none, none⟩ fsl.snapDirs h3 p hpin hp1
    rw [hpe] at hpsome
    simp at hpsome

/-- Witness for C4 amended: the concrete failed-download run from a fresh
timestamp. -/
theorem snapshot_download_failure_empty_dir_witness :
    create_snapshot "t1" "h1" "mt" none
        ⟨0, some "m", some "c", some "f"⟩
        ⟨[("c", "chatbytes")], [], ["c"], []⟩
        ⟨[], [("m", "CTX")], none⟩ =
      (⟨[("t1", ⟨none, none⟩)], [("m", "CTX")], none⟩, [.getContent "c"])
    ∧ ((⟨[("t1", ⟨none, none⟩)], [("m", "CTX")], none⟩ : LocalStore).snapDirs.find?
        (fun p => p.1 = "t1")).map (·.2) = some ⟨none, none⟩
    ∧ "t1" ∉ get_all_snapshot_ids ⟨[("t1", ⟨none, none⟩)], [("m", "CTX")], none⟩ :=
  snapshot_download_failure_empty_dir "t1" "h1" "mt" none
    ⟨0, some "m", some "c", some "f"⟩
    ⟨[("c", "chatbytes")], [], ["c"], []⟩
    ⟨[], [("m", "CTX")], none⟩ "m" "c"
    ⟨[("t1", ⟨none, none⟩)], [("m", "CTX")], none⟩
    rfl rfl (by decide) (by decide) (by decide)

/-- C5: restoring a snapshot whose context_hash_ref is absent from the
Content Store fails (returns False after reporting the missing stored
content), issues no remote write to either document (empty trace, remote
unchanged), and leaves the state — content_hash included — and the local
store unchanged. -/
theorem restore_missing_ref_no_write :
    ∀ (ts : String) (s : StateRecord) (r : Remote) (fsl : LocalStore)
      (snap : SnapDir) (info : SnapInfo),
      ((fsl.snapDirs.find? (fun p => p.1 = ts)).map (·.2)) = some snap →
      snap.info = some info →
      fsl.contextStore.find? (fun p => p.1 = info.contextMd5) = none →
      restore_snapshot ts s r fsl = .ok (false, s, r, fsl, []) := by
  intro ts s r fsl snap info h1 h2 h3
  simp [restore_snapshot, h1, h2, h3]

/-- Witness for C5: a concrete snapshot whose referenced hash is missing
from an empty content store. -/
theorem restore_missing_ref_no_write_witness :
    restore_snapshot "t1" ⟨0, some "x", some "c", some "f"⟩ ⟨[], [], [], []⟩
        ⟨[("t1", ⟨some "chat", some ⟨"t1", "h", "mt", "m", none⟩⟩)], [], none⟩ =
      .ok (false, ⟨0, some "x", some "c", some "f"⟩, ⟨[], [], [], []⟩,
        ⟨[("t1", ⟨some "chat", some ⟨"t1", "h", "mt", "m", none⟩⟩)], [], none⟩, []) :=
  restore_missing_ref_no_write "t1" ⟨0, some "x", some "c", some "f"⟩
    ⟨[], [], [], []⟩
    ⟨[("t1", ⟨some "chat", some ⟨"t1", "h", "mt", "m", none⟩⟩)], [], none⟩
    ⟨some "chat", some ⟨"t1", "h", "mt", "m", none⟩⟩ ⟨"t1", "h", "mt", "m", none⟩
    (by decide) rfl (by decide)
